import Mathlib

/-!
Verification of the Voltcraft Energy Logger 4000 decoder (main.py).

This file gives a shallow embedding of the two core components of the
program:

- the per-sensor binary log decoder `Data.accumulate` (header blocks
  marked with the ASCII bytes INFO:, and record-stream blocks), together
  with the stable re-sort of the record list and the post-accumulation
  backfill of leading unresolved timestamps; and
- the tariff-window merge sweep `getPrice1RangeList`.

Modelling conventions:
- Raw file bytes are lists of natural numbers (each entry one byte).
- Python floats produced by the scalings /10, /100, /1000 are modelled
  exactly as rationals.
- A datetime value is modelled as the number of minutes since
  2000-01-01 00:00 (all datetimes built by the program have year
  2000 + byte, so this is a faithful order-isomorphic encoding; the
  60-second TIMEDELTA step is one minute). Python datetime construction
  validates its fields and raises ValueError on an invalid date, which
  is modelled by mkTimestamp returning none.
- Python raises exceptions while mutating the Data object in place, so
  accumulate returns the (possibly partially mutated) state together
  with an optional error, mirroring the state the Python object is left
  in when the call raises.
- The in-place Python sort (stable, ascending by key) is modelled by
  Mathlib's insertionSort, which is the (extensionally unique) stable
  ascending sort for the decidable total preorder recLE.
- The unbounded while loop of the record-stream parser is modelled with
  an explicit fuel parameter; accumulate supplies fuel length + 1, which
  is always sufficient since every iteration either stops or consumes at
  least three bytes.
-/

namespace EL4K

/-- Decode errors, mirroring the exceptions the Python code can raise:
truncation (struct.error / IndexError on a short read), badDate
(datetime ValueError), stateError (the assert power is None guarding a
second header), formatError (the assert on the 4-byte header trailer). -/
inductive Err where
  | truncation
  | badDate
  | stateError
  | formatError
deriving DecidableEq

/-- The ASCII bytes of the header marker INFO: . -/
def INFO : List Nat := [73, 78, 70, 79, 58]

/-- Byte-coded decimal: fold value * 10 + digit over the bytes
(function Bcd in main.py; it performs no length or digit-range check). -/
def Bcd (data : List Nat) : Nat :=
  data.foldl (fun result char => result * 10 + char) 0

/-- Read a slice of n bytes starting at pos, BytesIO-style: a read past
the end returns the (possibly short) remainder. -/
def take' (l : List Nat) (pos n : Nat) : List Nat :=
  (l.drop pos).take n

/-- Function int3 in main.py: struct.unpack of a 3-byte big-endian
unsigned integer; struct.error (truncation) if fewer than 3 bytes. -/
def int3 (data : List Nat) : Except Err Nat :=
  if data.length = 3 then
    .ok (data.getD 0 0 * 65536 + data.getD 1 0 * 256 + data.getD 2 0)
  else
    .error .truncation

/-- Function dailyDuration in main.py: struct.unpack of a 2-byte
big-endian unsigned integer, kept as the raw packed value. -/
def dailyDuration (data : List Nat) : Except Err Nat :=
  if data.length = 2 then
    .ok (data.getD 0 0 * 256 + data.getD 1 0)
  else
    .error .truncation

/-- Gregorian leap-year test (as datetime uses). -/
def isLeap (y : Nat) : Bool :=
  (y % 4 == 0 && y % 100 != 0) || y % 400 == 0

/-- Number of days in a month of a given year. -/
def daysInMonth (y m : Nat) : Nat :=
  if m = 2 then (if isLeap y then 29 else 28)
  else if m = 4 ∨ m = 6 ∨ m = 9 ∨ m = 11 then 30
  else 31

/-- Days in the months of year y strictly before month m. -/
def monthDaysBefore (y m : Nat) : Nat :=
  ((List.range' 1 (m - 1)).map (daysInMonth y)).sum

/-- Number of leap years in the interval from year 1 to year n inclusive. -/
def leapCount (n : Nat) : Nat :=
  n / 4 - n / 100 + n / 400

/-- Days from 2000-01-01 to the first day of year y (y is at least 2000
for every date the program constructs). -/
def daysSince2000 (y : Nat) : Nat :=
  365 * (y - 2000) + (leapCount (y - 1) - leapCount 1999)

/-- Minutes from 2000-01-01 00:00 to the given date and time. -/
def toMinutes (y m d hh mm : Nat) : Nat :=
  ((daysSince2000 y + monthDaysBefore y m + (d - 1)) * 24 + hh) * 60 + mm

/-- Model of the datetime.datetime constructor: validates the field
ranges (returning none for the ValueError case) and encodes the result
as minutes since 2000-01-01 00:00. -/
def mkTimestamp (y m d hh mm : Nat) : Option Nat :=
  if 1 ≤ m ∧ m ≤ 12 ∧ 1 ≤ d ∧ d ≤ daysInMonth y m ∧ hh ≤ 23 ∧ mm ≤ 59 then
    some (toMinutes y m d hh mm)
  else
    none

/-- EARLIEST_TIME in main.py: datetime(2000, 1, 1), the first possible
time, used as a None replacement for sorting; in minutes it is 0. -/
def EARLIEST_TIME : Nat := toMinutes 2000 1 1 0 0

/-- One entry of record_list: optional timestamp (None until resolved),
then voltage / 10, current / 1000, power_factor / 100. -/
structure Record where
  ts : Option Nat
  voltage : ℚ
  current : ℚ
  power_factor : ℚ
deriving DecidableEq

/-- The per-sensor dataset of class Data in main.py. -/
structure Data where
  power : Option ℚ
  recorded : Option ℚ
  /-- The attribute is named on in main.py; Lean reserves that token. -/
  on_hours : Option ℚ
  sensor_id : Option Nat
  price1 : Option ℚ
  price2 : Option ℚ
  since : Option Nat
  record_list : List Record
  daily_total : List (ℚ × Nat × Nat)
deriving DecidableEq

/-- A fresh Data object as built by Data.__init__. -/
def emptyData : Data :=
  ⟨none, none, none, none, none, none, none, [], []⟩

/-- Sort key of the record-list sort: the timestamp, with None replaced
by EARLIEST_TIME (the lambda x: x[0] or EARLIEST_TIME key). -/
def recKey (r : Record) : Nat :=
  r.ts.getD EARLIEST_TIME

/-- Ordering relation of the stable ascending sort of record_list. -/
def recLE (a b : Record) : Prop :=
  recKey a ≤ recKey b

instance : DecidableRel recLE := fun a b => Nat.decLe (recKey a) (recKey b)

instance : IsTotal Record recLE := ⟨fun a b => Nat.le_total (recKey a) (recKey b)⟩

instance : IsTrans Record recLE := ⟨fun _ _ _ => Nat.le_trans⟩

/-- Read count consecutive 3-byte big-endian integers starting at pos
(the first daily_total loop); fails on the first short read. -/
def readInt3s (body : List Nat) : Nat → Nat → Except Err (List Nat)
  | _, 0 => .ok []
  | pos, n + 1 =>
    match int3 (take' body pos 3) with
    | .error e => .error e
    | .ok v =>
      match readInt3s body (pos + 3) n with
      | .error e => .error e
      | .ok vs => .ok (v :: vs)

/-- Read count consecutive 2-byte big-endian integers starting at pos
(the second and third daily_total loops); fails on the first short read. -/
def readInt2s (body : List Nat) : Nat → Nat → Except Err (List Nat)
  | _, 0 => .ok []
  | pos, n + 1 =>
    match dailyDuration (take' body pos 2) with
    | .error e => .error e
    | .ok v =>
      match readInt2s body (pos + 2) n with
      | .error e => .error e
      | .ok vs => .ok (v :: vs)

/-- Header branch of Data.accumulate, applied to the bytes after the
5-byte INFO: marker. The sequential BytesIO reads of fixed sizes are
rendered as slices at fixed offsets. Assignments happen in source
order, so on an error the returned state holds exactly the fields
assigned before the failing read, as the mutated Python object does.
(One deviation, unobserved by any claim: a short read inside one of the
three 10-iteration daily_total loops leaves the Python list partially
grown, while here daily_total keeps its previous value in that case;
the success value and the error are identical.) -/
def headerAccum (d : Data) (body : List Nat) : Data × Option Err :=
  match d.power with
  | some _ => (d, some .stateError)
  | none =>
    match int3 (take' body 0 3) with
    | .error e => (d, some e)
    | .ok p =>
      let d := { d with power := some ((p : ℚ) / 1000) }
      match int3 (take' body 3 3) with
      | .error e => (d, some e)
      | .ok r =>
        let d := { d with recorded := some ((r : ℚ) / 100) }
        match int3 (take' body 6 3) with
        | .error e => (d, some e)
        | .ok o =>
          let d := { d with on_hours := some ((o : ℚ) / 100) }
          match readInt3s body 9 10 with
          | .error e => (d, some e)
          | .ok es =>
            match readInt2s body 39 10 with
            | .error e => (d, some e)
            | .ok rs =>
              match readInt2s body 59 10 with
              | .error e => (d, some e)
              | .ok os =>
                let dt := List.zipWith (fun e ro => ((e : ℚ) / 1000, ro)) es (rs.zip os)
                let d := { d with daily_total := d.daily_total ++ dt }
                match take' body 79 1 with
                | [] => (d, some .truncation)
                | b :: _ =>
                  let d := { d with sensor_id := some b }
                  let d := { d with price1 := some ((Bcd (take' body 80 4) : ℚ) / 1000) }
                  let d := { d with price2 := some ((Bcd (take' body 84 4) : ℚ) / 1000) }
                  let five := take' body 88 5
                  if five.length = 5 then
                    match mkTimestamp (2000 + five.getD 4 0) (five.getD 2 0)
                        (five.getD 3 0) (five.getD 0 0) (five.getD 1 0) with
                    | none => (d, some .badDate)
                    | some t =>
                      let d := { d with since := some t }
                      if body.drop 93 = [255, 255, 255, 255] then (d, none)
                      else (d, some .formatError)
                  else (d, some .truncation)

/-- Record-stream loop of Data.accumulate: read 3 bytes; a time marker
E0 C5 EA is followed by 5 bytes (month, day, year, hour, minute)
setting the current date; FF FF FF terminates; anything else is the
start of a 5-byte measurement (voltage, current, power_factor) appended
with the current date, which then advances by one minute when resolved.
The fuel argument only bounds the iteration count; accumulate passes
length + 1, which is always sufficient because every iteration either
returns or consumes at least 3 bytes. -/
def parseStream (fuel : Nat) (date : Option Nat) (bytes : List Nat)
    (acc : List Record) : List Record × Option Err :=
  match fuel with
  | 0 => (acc, some .truncation)
  | fuel + 1 =>
    let chunk := bytes.take 3
    if chunk = [0xe0, 0xc5, 0xea] then
      let five := take' bytes 3 5
      if five.length = 5 then
        match mkTimestamp (2000 + five.getD 2 0) (five.getD 0 0)
            (five.getD 1 0) (five.getD 3 0) (five.getD 4 0) with
        | none => (acc, some .badDate)
        | some t => parseStream fuel (some t) (bytes.drop 8) acc
      else (acc, some .truncation)
    else if chunk = [0xff, 0xff, 0xff] then (acc, none)
    else
      let five := bytes.take 5
      if five.length = 5 then
        let r : Record :=
          ⟨date, ((five.getD 0 0 * 256 + five.getD 1 0 : Nat) : ℚ) / 10,
            ((five.getD 2 0 * 256 + five.getD 3 0 : Nat) : ℚ) / 1000,
            ((five.getD 4 0 : Nat) : ℚ) / 100⟩
        parseStream fuel (date.map (· + 1)) (bytes.drop 5) (acc ++ [r])
      else (acc, some .truncation)

/-- Backfill loop body: walk the list assigning t, t+1, ... to the
leading run of None-timestamp records, stopping at the first record
with a resolved timestamp. -/
def fillRun (t : Nat) : List Record → List Record
  | [] => []
  | r :: rest =>
    if r.ts = none then { r with ts := some t } :: fillRun (t + 1) rest
    else r :: rest

/-- Backfill over a record list given the dataset's since field:
runs only when since is resolved and the first record is unresolved. -/
def backfillList (since : Option Nat) (l : List Record) : List Record :=
  match since with
  | none => l
  | some s =>
    match l with
    | [] => l
    | r :: _ => if r.ts = none then fillRun s l else l

/-- Post-accumulation backfill step of Data.accumulate (lines 124-133
of main.py), expressed on the whole dataset. -/
def backfillData (d : Data) : Data :=
  { d with record_list := backfillList d.since d.record_list }

/-- Data.accumulate: dispatch on the 5-byte marker, then (only when no
exception was raised) the post-accumulation backfill. On an error the
returned state carries the mutations performed before the exception,
as the Python object does; note the record-stream branch appends the
records parsed before a failure and only sorts on success. -/
def accumulate (d : Data) (data : List Nat) : Data × Option Err :=
  let step :=
    if data.take 5 = INFO then
      headerAccum d (data.drop 5)
    else
      match parseStream (data.length + 1) none data d.record_list with
      | (recs, some e) => ({ d with record_list := recs }, some e)
      | (recs, none) =>
        ({ d with record_list := List.insertionSort recLE recs }, none)
  match step with
  | (d', some e) => (d', some e)
  | (d', none) => (backfillData d', none)

/-- Non-fatal conflict warnings of the tariff merge sweep (the two
sys.stderr.write calls in getPrice1RangeList), carrying the new time
and the time since which that tariff was already applying. -/
inductive PriceWarning where
  | dup1 (time prev : Nat)
  | dup2 (time prev : Nat)
deriving DecidableEq

/-- Sweep state of getPrice1RangeList: emitted windows, warnings
written so far, last tariff2 start seen, and the currently open
tariff1 window start. -/
structure SweepState where
  result : List (Nat × Option Nat)
  warnings : List PriceWarning
  last_price2_start : Option Nat
  running_range : Option Nat
deriving DecidableEq

/-- One step of the merge sweep, for one (time, is-tariff1) marker. -/
def priceStep (s : SweepState) (m : Nat × Bool) : SweepState :=
  if m.2 then
    match s.running_range with
    | none => { s with running_range := some m.1 }
    | some r => { s with warnings := s.warnings ++ [.dup1 m.1 r] }
  else
    match s.running_range with
    | none =>
      match s.last_price2_start with
      | some p =>
        { s with warnings := s.warnings ++ [.dup2 m.1 p], last_price2_start := some m.1 }
      | none => { s with last_price2_start := some m.1 }
    | some r =>
      { s with result := s.result ++ [(r, some m.1)], running_range := none, last_price2_start := some m.1 }

/-- getPrice1RangeList in main.py: tag, merge by a stable ascending
sort on time (tariff1 entries listed first, hence before tariff2 at
equal times), sweep, and close a dangling window with end none. Times
are minutes of the day; stderr warnings are returned as a list. -/
def getPrice1RangeList (price1_start_list price2_start_list : List Nat) :
    List (Nat × Option Nat) × List PriceWarning :=
  let merged_list := List.insertionSort (fun a b : Nat × Bool => a.1 ≤ b.1)
    (price1_start_list.map (fun x => (x, true)) ++
      price2_start_list.map (fun x => (x, false)))
  let final := merged_list.foldl priceStep ⟨[], [], none, none⟩
  match final.running_range with
  | some r => (final.result ++ [(r, none)], final.warnings)
  | none => (final.result, final.warnings)

/-- Default record used with List.getD in theorem statements. -/
def defaultRec : Record :=
  ⟨none, 0, 0, 0⟩

/-- The 3-byte big-endian integer of a byte list at offset p, written
directly with list indexing; used to state what the decoder produces. -/
def be3At (l : List Nat) (p : Nat) : Nat :=
  l.getD p 0 * 65536 + l.getD (p + 1) 0 * 256 + l.getD (p + 2) 0

/-- The 2-byte big-endian integer of a byte list at offset p. -/
def be2At (l : List Nat) (p : Nat) : Nat :=
  l.getD p 0 * 256 + l.getD (p + 1) 0

/-- The 4-byte byte-coded-decimal fold (value = value * 10 + digit) of a
byte list at offset p, written directly with list indexing. -/
def bcd4At (l : List Nat) (p : Nat) : Nat :=
  ((l.getD p 0 * 10 + l.getD (p + 1) 0) * 10 + l.getD (p + 2) 0) * 10 + l.getD (p + 3) 0

/-- The list of n consecutive 3-byte big-endian integers of l starting
at offset pos (so entry i sits at offset pos + 3i). -/
def be3List (l : List Nat) : Nat → Nat → List Nat
  | _, 0 => []
  | pos, n + 1 => be3At l pos :: be3List l (pos + 3) n

/-- The list of n consecutive 2-byte big-endian integers of l starting
at offset pos (so entry i sits at offset pos + 2i). -/
def be2List (l : List Nat) : Nat → Nat → List Nat
  | _, 0 => []
  | pos, n + 1 => be2At l pos :: be2List l (pos + 2) n

/-- The ten daily_total triples a header body decodes to: energies are
3-byte integers at offsets 9 + 3i scaled by 1000, the two duration
columns are raw 2-byte integers at offsets 39 + 2i and 59 + 2i. -/
def hdrDailyVals (body : List Nat) : List (ℚ × Nat × Nat) :=
  List.zipWith (fun e ro => ((e : ℚ) / 1000, ro))
    (be3List body 9 10) ((be2List body 39 10).zip (be2List body 59 10))

/-- The 5 bytes of one measurement record: big-endian voltage and
current words followed by the power-factor byte. -/
def encodeMeas (m : Nat × Nat × Nat) : List Nat :=
  [m.1 / 256, m.1 % 256, m.2.1 / 256, m.2.1 % 256, m.2.2]

/-- A record-stream block holding the given measurements and nothing
else: no time marker, closed by the FF FF FF terminator. -/
def encodeStream (ms : List (Nat × Nat × Nat)) : List Nat :=
  (ms.map encodeMeas).flatten ++ [255, 255, 255]

/-- The record the stream branch appends for one measurement read at
the given current date. -/
def measRecord (date : Option Nat) (m : Nat × Nat × Nat) : Record :=
  ⟨date, (m.1 : ℚ) / 10, (m.2.1 : ℚ) / 1000, (m.2.2 : ℚ) / 100⟩

/-- The valid 4-byte header trailer. -/
def ff4 : List Nat := [255, 255, 255, 255]

/-- Concrete header body (97 bytes): all-zero fields except the date
month=2 day=1, so since decodes to 2000-02-01 00:00 (minute 44640). -/
def hdrBody0 : List Nat := List.replicate 88 0 ++ [0, 0, 2, 1, 0] ++ ff4

/-- Concrete header body whose trailer is 00 00 00 00 instead of
FF FF FF FF. -/
def hdrBodyBad : List Nat := List.replicate 88 0 ++ [0, 0, 2, 1, 0] ++ [0, 0, 0, 0]

/-- Concrete well-formed header body whose sensor-id byte (offset 79)
is 10, outside the documented 0-9 range. -/
def hdrBodySensor10 : List Nat :=
  List.replicate 79 0 ++ [10] ++ List.replicate 8 0 ++ [0, 0, 2, 1, 0] ++ ff4

/-- Concrete header body whose since decodes to 2000-01-01 00:05
(minute 5). -/
def hdrBody5 : List Nat := List.replicate 88 0 ++ [0, 5, 1, 1, 0] ++ ff4

/-- One concrete 5-byte measurement: voltage word 1, current word 257,
power factor 1. -/
def measBytes : List Nat := [0, 1, 0, 1, 1]

/-- The 3-byte record-stream terminator. -/
def termBytes : List Nat := [255, 255, 255]

/-- A time marker selecting 2000-01-01 00:00 (minute 0). -/
def markerEpoch : List Nat := [224, 197, 234, 1, 1, 0, 0, 0]

/-- A time marker selecting 2000-01-02 00:00 (minute 1440). -/
def marker0102 : List Nat := [224, 197, 234, 1, 2, 0, 0, 0]

/-- Record block: one unmarked measurement, then a time marker for
2000-01-02, then one more measurement. -/
def rblkC5 : List Nat := measBytes ++ marker0102 ++ measBytes ++ termBytes

/-- Record block: a time marker for 2000-01-01 00:00 then one
measurement. -/
def mblkEpoch : List Nat := markerEpoch ++ measBytes ++ termBytes

/-- Record block holding a single unmarked measurement. -/
def oneMeasBlk : List Nat := measBytes ++ termBytes

/-- Record block starting with a time marker whose month byte is 0, an
invalid calendar date; every read in it completes and it carries the
terminator. -/
def badDateBlk : List Nat := [224, 197, 234, 0, 1, 0, 0, 0] ++ termBytes

theorem getD_drop (l : List Nat) (n i : Nat) : (l.drop n).getD i 0 = l.getD (n + i) 0 := by
  rw [List.getD_eq_getElem?_getD, List.getElem?_drop, List.getD_eq_getElem?_getD]

theorem getD_take (l : List Nat) (n i : Nat) (h : i < n) : (l.take n).getD i 0 = l.getD i 0 := by
  rw [List.getD_eq_getElem?_getD, List.getElem?_take, if_pos h, List.getD_eq_getElem?_getD]

theorem take'_getD (l : List Nat) (p n i : Nat) (h : i < n) :
    (take' l p n).getD i 0 = l.getD (p + i) 0 := by
  unfold take'
  rw [getD_take _ _ _ h, getD_drop]

theorem take'_zero (l : List Nat) (p : Nat) : take' l p 0 = [] := by
  simp [take']

theorem take'_eq_cons (l : List Nat) (p n : Nat) (h : p < l.length) :
    take' l p (n + 1) = l.getD p 0 :: take' l (p + 1) n := by
  unfold take'
  rw [List.drop_eq_getElem_cons h, List.take_succ_cons, List.getD_eq_getElem l 0 h]

theorem int3_at (l : List Nat) (p : Nat) (h : p + 3 ≤ l.length) :
    int3 (take' l p 3) = .ok (be3At l p) := by
  rw [take'_eq_cons l p 2 (by omega), take'_eq_cons l (p + 1) 1 (by omega),
    take'_eq_cons l (p + 2) 0 (by omega), take'_zero]
  simp [int3, be3At]

theorem dailyDuration_at (l : List Nat) (p : Nat) (h : p + 2 ≤ l.length) :
    dailyDuration (take' l p 2) = .ok (be2At l p) := by
  rw [take'_eq_cons l p 1 (by omega), take'_eq_cons l (p + 1) 0 (by omega), take'_zero]
  simp [dailyDuration, be2At]

theorem readInt3s_ok (l : List Nat) :
    ∀ (n pos : Nat), pos + 3 * n ≤ l.length → readInt3s l pos n = .ok (be3List l pos n)
  | 0, pos, _ => by simp [readInt3s, be3List]
  | n + 1, pos, h => by
    rw [readInt3s, int3_at l pos (by omega), readInt3s_ok l n (pos + 3) (by omega)]
    rfl

theorem readInt2s_ok (l : List Nat) :
    ∀ (n pos : Nat), pos + 2 * n ≤ l.length → readInt2s l pos n = .ok (be2List l pos n)
  | 0, pos, _ => by simp [readInt2s, be2List]
  | n + 1, pos, h => by
    rw [readInt2s, dailyDuration_at l pos (by omega), readInt2s_ok l n (pos + 2) (by omega)]
    rfl

theorem headerAccum_decode (d : Data) (body : List Nat) (T : Nat)
    (hlen : 93 ≤ body.length)
    (hdate : mkTimestamp (2000 + body.getD 92 0) (body.getD 90 0) (body.getD 91 0)
      (body.getD 88 0) (body.getD 89 0) = some T)
    (hpw : d.power = none) :
    headerAccum d body =
      ({ d with
          power := some ((be3At body 0 : ℚ) / 1000),
          recorded := some ((be3At body 3 : ℚ) / 100),
          on_hours := some ((be3At body 6 : ℚ) / 100),
          sensor_id := some (body.getD 79 0),
          price1 := some ((bcd4At body 80 : ℚ) / 1000),
          price2 := some ((bcd4At body 84 : ℚ) / 1000),
          since := some T,
          daily_total := d.daily_total ++ hdrDailyVals body },
        if body.drop 93 = [255, 255, 255, 255] then none else some Err.formatError) := by
  have e79 : take' body 79 1 = [body.getD 79 0] := by
    rw [take'_eq_cons body 79 0 (by omega), take'_zero]
  have e80 : take' body 80 4 = [body.getD 80 0, body.getD 81 0, body.getD 82 0, body.getD 83 0] := by
    rw [take'_eq_cons body 80 3 (by omega), take'_eq_cons body 81 2 (by omega),
      take'_eq_cons body 82 1 (by omega), take'_eq_cons body 83 0 (by omega), take'_zero]
  have e84 : take' body 84 4 = [body.getD 84 0, body.getD 85 0, body.getD 86 0, body.getD 87 0] := by
    rw [take'_eq_cons body 84 3 (by omega), take'_eq_cons body 85 2 (by omega),
      take'_eq_cons body 86 1 (by omega), take'_eq_cons body 87 0 (by omega), take'_zero]
  have e88 : take' body 88 5 =
      [body.getD 88 0, body.getD 89 0, body.getD 90 0, body.getD 91 0, body.getD 92 0] := by
    rw [take'_eq_cons body 88 4 (by omega), take'_eq_cons body 89 3 (by omega),
      take'_eq_cons body 90 2 (by omega), take'_eq_cons body 91 1 (by omega),
      take'_eq_cons body 92 0 (by omega), take'_zero]
  simp only [headerAccum, hpw, int3_at body 0 (by omega), int3_at body 3 (by omega),
    int3_at body 6 (by omega), readInt3s_ok body 10 9 (by omega),
    readInt2s_ok body 10 39 (by omega), readInt2s_ok body 10 59 (by omega),
    e79, e80, e84, e88, hdate, hdrDailyVals, Bcd, bcd4At, List.foldl,
    List.length_cons, List.length_nil, List.getD_cons_zero, List.getD_cons_succ]
  norm_num
  split <;> rfl

theorem headerAccum_record_list (d : Data) (body : List Nat) :
    (headerAccum d body).1.record_list = d.record_list := by
  unfold headerAccum
  cases d.power with
  | some v => rfl
  | none =>
  cases int3 (take' body 0 3) with
  | error e => rfl
  | ok p =>
  cases int3 (take' body 3 3) with
  | error e => rfl
  | ok r =>
  cases int3 (take' body 6 3) with
  | error e => rfl
  | ok o =>
  cases readInt3s body 9 10 with
  | error e => rfl
  | ok es =>
  cases readInt2s body 39 10 with
  | error e => rfl
  | ok rs =>
  cases readInt2s body 59 10 with
  | error e => rfl
  | ok os =>
  cases take' body 79 1 with
  | nil => rfl
  | cons b rest =>
  dsimp only
  split
  · split
    · rfl
    · split <;> rfl
  · rfl

theorem headerAccum_ok_since (d : Data) (body : List Nat)
    (h : (headerAccum d body).2 = none) :
    (headerAccum d body).1.since =
      mkTimestamp (2000 + (take' body 88 5).getD 4 0) ((take' body 88 5).getD 2 0)
        ((take' body 88 5).getD 3 0) ((take' body 88 5).getD 0 0) ((take' body 88 5).getD 1 0) := by
  unfold headerAccum at h ⊢
  cases hp : d.power with
  | some v => rw [hp] at h; exact absurd h (by simp)
  | none =>
  rw [hp] at h
  cases h0 : int3 (take' body 0 3) with
  | error e => rw [h0] at h; exact absurd h (by simp)
  | ok p =>
  rw [h0] at h
  cases h1 : int3 (take' body 3 3) with
  | error e => rw [h1] at h; exact absurd h (by simp)
  | ok r =>
  rw [h1] at h
  cases h2 : int3 (take' body 6 3) with
  | error e => rw [h2] at h; exact absurd h (by simp)
  | ok o =>
  rw [h2] at h
  cases h3 : readInt3s body 9 10 with
  | error e => rw [h3] at h; exact absurd h (by simp)
  | ok es =>
  rw [h3] at h
  cases h4 : readInt2s body 39 10 with
  | error e => rw [h4] at h; exact absurd h (by simp)
  | ok rs =>
  rw [h4] at h
  cases h6 : readInt2s body 59 10 with
  | error e => rw [h6] at h; exact absurd h (by simp)
  | ok os =>
  rw [h6] at h
  cases h7 : take' body 79 1 with
  | nil => rw [h7] at h; exact absurd h (by simp)
  | cons b rest =>
  rw [h7] at h
  dsimp only at h ⊢
  by_cases h8 : (take' body 88 5).length = 5
  case neg => rw [if_neg h8] at h; exact absurd h (by simp)
  rw [if_pos h8] at h ⊢
  cases h9 : mkTimestamp (2000 + (take' body 88 5).getD 4 0) ((take' body 88 5).getD 2 0)
      ((take' body 88 5).getD 3 0) ((take' body 88 5).getD 0 0) ((take' body 88 5).getD 1 0) with
  | none => rw [h9] at h; exact absurd h (by simp)
  | some t =>
  rw [h9] at h
  dsimp only at h ⊢
  split <;> rfl

theorem accumulate_header_errs (d : Data) (data : List Nat) (h5 : data.take 5 = INFO) :
    (accumulate d data).2 = (headerAccum d (data.drop 5)).2 := by
  unfold accumulate
  rw [if_pos h5]
  rcases hH : headerAccum d (data.drop 5) with ⟨d', e'⟩
  cases e' <;> rfl

theorem accumulate_header_ok (d : Data) (data : List Nat) (h5 : data.take 5 = INFO)
    (h : (headerAccum d (data.drop 5)).2 = none) :
    accumulate d data = (backfillData (headerAccum d (data.drop 5)).1, none) := by
  unfold accumulate
  rw [if_pos h5]
  rcases hH : headerAccum d (data.drop 5) with ⟨d', e'⟩
  rw [hH] at h
  cases e' with
  | some e => exact absurd h (by simp)
  | none => rfl

theorem parseStream_acc : ∀ (fuel : Nat) (date : Option Nat) (bytes : List Nat) (acc : List Record),
    parseStream fuel date bytes acc =
      (acc ++ (parseStream fuel date bytes []).1, (parseStream fuel date bytes []).2)
  | 0, date, bytes, acc => by simp [parseStream]
  | fuel + 1, date, bytes, acc => by
    simp only [parseStream]
    split
    · split
      · split
        · simp
        · rw [parseStream_acc fuel _ _ acc]
      · simp
    · split
      · simp
      · split
        · rw [parseStream_acc fuel _ _ (acc ++ [_]), parseStream_acc fuel _ _ ([] ++ [_])]
          simp
        · simp

theorem parseStream_err : ∀ (fuel : Nat) (date : Option Nat) (bytes : List Nat)
    (acc : List Record) (e : Err), (parseStream fuel date bytes acc).2 = some e →
      e = .truncation ∨ e = .badDate
  | 0, date, bytes, acc, e, h => by
    simp [parseStream] at h
    exact Or.inl h.symm
  | fuel + 1, date, bytes, acc, e, h => by
    simp only [parseStream] at h
    split at h
    · split at h
      · split at h
        · simp at h
          exact Or.inr h.symm
        · exact parseStream_err fuel _ _ _ _ h
      · simp at h
        exact Or.inl h.symm
    · split at h
      · simp at h
      · split at h
        · exact parseStream_err fuel _ _ _ _ h
        · simp at h
          exact Or.inl h.symm

theorem accumulate_record_errs (d : Data) (bytes : List Nat) (h5 : bytes.take 5 ≠ INFO) :
    (accumulate d bytes).2 = (parseStream (bytes.length + 1) none bytes []).2 := by
  unfold accumulate
  rw [if_neg h5, parseStream_acc (bytes.length + 1) none bytes d.record_list]
  rcases hP : parseStream (bytes.length + 1) none bytes [] with ⟨recs, err⟩
  cases err <;> rfl

theorem accumulate_record_ok (d : Data) (bytes : List Nat) (h5 : bytes.take 5 ≠ INFO)
    (h : (parseStream (bytes.length + 1) none bytes []).2 = none) :
    accumulate d bytes =
      ({ d with record_list := backfillList d.since (List.insertionSort recLE
          (d.record_list ++ (parseStream (bytes.length + 1) none bytes []).1)) }, none) := by
  unfold accumulate
  rw [if_neg h5, parseStream_acc (bytes.length + 1) none bytes d.record_list]
  rcases hP : parseStream (bytes.length + 1) none bytes [] with ⟨recs, err⟩
  rw [hP] at h
  cases err with
  | some e => exact absurd h (by simp)
  | none => rfl

theorem EARLIEST_TIME_eq : EARLIEST_TIME = 0 := rfl

theorem recLE_of_none (a b : Record) (h : a.ts = none) : recLE a b := by
  unfold recLE recKey
  rw [h]
  simp [EARLIEST_TIME_eq]

theorem fillRun_length : ∀ (t : Nat) (l : List Record), (fillRun t l).length = l.length
  | _, [] => rfl
  | t, r :: rest => by
    unfold fillRun
    split
    · simp [fillRun_length (t + 1) rest]
    · rfl

theorem fillRun_getD_some : ∀ (t i : Nat) (l : List Record),
    (l.getD i defaultRec).ts.isSome = true →
      (fillRun t l).getD i defaultRec = l.getD i defaultRec
  | _, _, [], _ => rfl
  | t, i, r :: rest, h => by
    unfold fillRun
    split
    next hnone =>
      cases i with
      | zero =>
        rw [List.getD_cons_zero, hnone] at h
        simp at h
      | succ i =>
        rw [List.getD_cons_succ] at h ⊢
        rw [List.getD_cons_succ]
        exact fillRun_getD_some (t + 1) i rest h
    next => rfl

theorem fillRun_values : ∀ (t i : Nat) (l : List Record),
    ((fillRun t l).getD i defaultRec).voltage = (l.getD i defaultRec).voltage ∧
    ((fillRun t l).getD i defaultRec).current = (l.getD i defaultRec).current ∧
    ((fillRun t l).getD i defaultRec).power_factor = (l.getD i defaultRec).power_factor
  | _, _, [] => ⟨rfl, rfl, rfl⟩
  | t, i, r :: rest => by
    unfold fillRun
    split
    · cases i with
      | zero => exact ⟨rfl, rfl, rfl⟩
      | succ i =>
        simp only [List.getD_cons_succ]
        exact fillRun_values (t + 1) i rest
    · exact ⟨rfl, rfl, rfl⟩

theorem fillRun_run : ∀ (t : Nat) (l : List Record),
    ∃ k, k ≤ l.length ∧ (∀ i, i < k → (l.getD i defaultRec).ts = none) ∧
      (fillRun t l).drop k = l.drop k
  | _, [] => ⟨0, by simp, by simp, rfl⟩
  | t, r :: rest => by
    unfold fillRun
    split
    next hnone =>
      obtain ⟨k, hk, hpre, hdrop⟩ := fillRun_run (t + 1) rest
      refine ⟨k + 1, by simp; omega, ?_, ?_⟩
      · intro i hi
        cases i with
        | zero => simpa [List.getD_cons_zero] using hnone
        | succ i =>
          rw [List.getD_cons_succ]
          exact hpre i (by omega)
      · simpa using hdrop
    next => exact ⟨0, by simp, by simp, rfl⟩

theorem backfillList_length (s : Option Nat) (l : List Record) :
    (backfillList s l).length = l.length := by
  unfold backfillList
  cases s with
  | none => rfl
  | some t =>
    cases l with
    | nil => rfl
    | cons r rest =>
      dsimp only
      split
      · exact fillRun_length t _
      · rfl

theorem backfillList_cases (s : Option Nat) (l : List Record) :
    backfillList s l = l ∨ ∃ t, s = some t ∧ backfillList s l = fillRun t l := by
  unfold backfillList
  cases s with
  | none => exact Or.inl rfl
  | some t =>
    cases l with
    | nil => exact Or.inl rfl
    | cons r rest =>
      dsimp only
      split
      · exact Or.inr ⟨t, rfl, rfl⟩
      · exact Or.inl rfl

theorem filter_orderedInsert_min (Q : Record → Bool)
    (hmin : ∀ x, Q x = true → ∀ y, recLE x y) (a : Record) : ∀ (l : List Record),
    (List.orderedInsert recLE a l).filter Q = if Q a then a :: l.filter Q else l.filter Q
  | [] => by cases hQ : Q a <;> simp [List.orderedInsert, List.filter, hQ]
  | b :: l => by
    by_cases hQ : Q a = true
    · rw [List.orderedInsert, if_pos (hmin a hQ b)]
      simp [List.filter_cons, hQ]
    · rw [List.orderedInsert]
      split
      · simp [List.filter_cons, hQ]
      · rw [List.filter_cons, List.filter_cons, filter_orderedInsert_min Q hmin a l]
        simp [hQ]

theorem filter_insertionSort_min (Q : Record → Bool)
    (hmin : ∀ x, Q x = true → ∀ y, recLE x y) : ∀ (l : List Record),
    (List.insertionSort recLE l).filter Q = l.filter Q
  | [] => rfl
  | a :: l => by
    rw [List.insertionSort, filter_orderedInsert_min Q hmin a _]
    cases hQ : Q a <;>
      simp [List.filter_cons, hQ, filter_insertionSort_min Q hmin l]

theorem sorted_of_all_none (l : List Record) (h : ∀ a ∈ l, a.ts = none) :
    List.Sorted recLE l := by
  induction l with
  | nil => exact List.sorted_nil
  | cons a rest ih =>
    rw [List.sorted_cons]
    refine ⟨fun b _ => recLE_of_none a b (h a (by simp)), ih fun x hx => h x (by simp [hx])⟩

theorem encodeStream_cons (m : Nat × Nat × Nat) (rest : List (Nat × Nat × Nat)) :
    encodeStream (m :: rest) = encodeMeas m ++ encodeStream rest := by
  simp [encodeStream, List.append_assoc]

theorem encodeStream_length (ms : List (Nat × Nat × Nat)) :
    3 ≤ (encodeStream ms).length := by
  simp [encodeStream]

theorem parseStream_encode : ∀ (ms : List (Nat × Nat × Nat)) (fuel : Nat) (acc : List Record),
    (∀ m ∈ ms, (encodeMeas m).take 3 ≠ [0xe0, 0xc5, 0xea] ∧
      (encodeMeas m).take 3 ≠ [0xff, 0xff, 0xff]) →
    (encodeStream ms).length < fuel →
    parseStream fuel none (encodeStream ms) acc = (acc ++ ms.map (measRecord none), none)
  | [], fuel, acc, _, hlen => by
    cases fuel with
    | zero => simp [encodeStream] at hlen
    | succ f => simp [parseStream, encodeStream]
  | m :: rest, fuel, acc, hm, hlen => by
    cases fuel with
    | zero => exact absurd hlen (by omega)
    | succ f =>
      rw [encodeStream_cons] at hlen ⊢
      have hm0 := hm m (by simp)
      have e3 : ((encodeMeas m ++ encodeStream rest).take 3) = (encodeMeas m).take 3 := by
        simp [encodeMeas, List.take_append_eq_append_take]
      have e5 : ((encodeMeas m ++ encodeStream rest).take 5) = encodeMeas m := by
        simp [encodeMeas, List.take_append_eq_append_take]
      have eD : ((encodeMeas m ++ encodeStream rest).drop 5) = encodeStream rest := by
        simp [encodeMeas]
      rw [parseStream, if_neg (by rw [e3]; exact hm0.1), if_neg (by rw [e3]; exact hm0.2)]
      rw [e5, eD]
      have hLm : (encodeMeas m).length = 5 := by simp [encodeMeas]
      rw [if_pos hLm]
      have hrec : (⟨none, ((((encodeMeas m).getD 0 0) * 256 + (encodeMeas m).getD 1 0 : Nat) : ℚ) / 10,
          ((((encodeMeas m).getD 2 0) * 256 + (encodeMeas m).getD 3 0 : Nat) : ℚ) / 1000,
          (((encodeMeas m).getD 4 0 : Nat) : ℚ) / 100⟩ : Record) = measRecord none m := by
        simp only [encodeMeas, List.getD_cons_zero, List.getD_cons_succ, measRecord]
        have h1 : m.1 / 256 * 256 + m.1 % 256 = m.1 := by omega
        have h2 : m.2.1 / 256 * 256 + m.2.1 % 256 = m.2.1 := by omega
        rw [h1, h2]
      rw [hrec]
      dsimp only [Option.map_none']
      have hlen2 : (encodeStream rest).length < f := by
        rw [List.length_append, hLm] at hlen
        omega
      rw [parseStream_encode rest f (acc ++ [measRecord none m])
        (fun x hx => hm x (by simp [hx])) hlen2]
      simp

theorem backfillList_all_none (s : Nat) (l : List Record) (h : ∀ a ∈ l, a.ts = none) :
    backfillList (some s) l = fillRun s l := by
  cases l with
  | nil => rfl
  | cons r rest =>
    unfold backfillList
    dsimp only
    rw [if_pos (h r (by simp))]

theorem fillRun_map_measRecord : ∀ (ms : List (Nat × Nat × Nat)) (t i : Nat), i < ms.length →
    (fillRun t (ms.map (measRecord none))).getD i defaultRec =
      { measRecord none (ms.getD i (0, 0, 0)) with ts := some (t + i) }
  | m :: rest, t, 0, _ => by
    simp [fillRun, measRecord, List.getD_cons_zero]
  | m :: rest, t, i + 1, h => by
    simp only [List.map_cons, fillRun, measRecord, List.getD_cons_succ]
    rw [if_pos trivial]
    rw [List.getD_cons_succ]
    have := fillRun_map_measRecord rest (t + 1) i (by simpa using h)
    rw [this]
    have harith : t + 1 + i = t + (i + 1) := by omega
    rw [harith]
    rfl

theorem sorted_map_measRecord (ms : List (Nat × Nat × Nat)) :
    List.Sorted recLE (ms.map (measRecord none)) := by
  refine sorted_of_all_none _ fun a ha => ?_
  obtain ⟨m, _, rfl⟩ := List.mem_map.mp ha
  rfl

theorem accumulate_header_error (d : Data) (data : List Nat) (e : Err)
    (h5 : data.take 5 = INFO) (h : (headerAccum d (data.drop 5)).2 = some e) :
    accumulate d data = ((headerAccum d (data.drop 5)).1, some e) := by
  unfold accumulate
  rw [if_pos h5]
  rcases hH : headerAccum d (data.drop 5) with ⟨d', e'⟩
  rw [hH] at h
  cases e' with
  | none => exact absurd h (by simp)
  | some x =>
    have : x = e := by simpa using h
    subst this
    rfl

/-- C2: for every well-formed header block (INFO: marker, at least 93
field bytes, a valid date at offsets 88-92, trailer FF FF FF FF)
accumulated into a dataset whose header is still unset, accumulate
succeeds and sets the header fields by the documented formulas: power
is the first 3-byte big-endian integer over 1000, recorded and on are
the next two such integers over 100, the tariff rates are the 4-byte
byte-coded-decimal folds at offsets 80 and 84 over 1000, and since is
timestamp(2000+year, month, day, hour, minute) of the bytes
(hour, minute, month, day, year) at offsets 88-92. -/
theorem C2_header_field_formulas (d : Data) (body : List Nat) (T : Nat)
    (hlen : 93 ≤ body.length)
    (htail : body.drop 93 = [255, 255, 255, 255])
    (hdate : mkTimestamp (2000 + body.getD 92 0) (body.getD 90 0) (body.getD 91 0)
      (body.getD 88 0) (body.getD 89 0) = some T)
    (hpw : d.power = none) :
    (accumulate d (INFO ++ body)).2 = none ∧
    (accumulate d (INFO ++ body)).1.power = some ((be3At body 0 : ℚ) / 1000) ∧
    (accumulate d (INFO ++ body)).1.recorded = some ((be3At body 3 : ℚ) / 100) ∧
    (accumulate d (INFO ++ body)).1.on_hours = some ((be3At body 6 : ℚ) / 100) ∧
    (accumulate d (INFO ++ body)).1.price1 = some ((bcd4At body 80 : ℚ) / 1000) ∧
    (accumulate d (INFO ++ body)).1.price2 = some ((bcd4At body 84 : ℚ) / 1000) ∧
    (accumulate d (INFO ++ body)).1.since = some T := by
  have h5 : (INFO ++ body).take 5 = INFO := rfl
  have hdrop : (INFO ++ body).drop 5 = body := rfl
  have hH := headerAccum_decode d body T hlen hdate hpw
  rw [if_pos htail] at hH
  have hok : (headerAccum d ((INFO ++ body).drop 5)).2 = none := by rw [hdrop, hH]
  rw [accumulate_header_ok d (INFO ++ body) h5 hok, hdrop, hH]
  exact ⟨rfl, rfl, rfl, rfl, rfl, rfl, rfl⟩

theorem C2_witness : (accumulate emptyData (INFO ++ hdrBody0)).1.since = some 44640 :=
  (C2_header_field_formulas emptyData hdrBody0 44640 (by decide) (by decide) (by decide)
    rfl).2.2.2.2.2.2

/-- C1 (amended): a header block whose trailing bytes after the fixed
fields are not FF FF FF FF makes accumulate fail with a format error,
but the dataset is not left unmodified: the header fields were already
assigned from the block before the trailer check, so after the failed
call they hold the decoded values (and only record_list is untouched,
since the backfill step does not run on a failed call). -/
theorem C1_bad_trailer_state (d : Data) (body : List Nat) (T : Nat)
    (hlen : 93 ≤ body.length)
    (htail : body.drop 93 ≠ [255, 255, 255, 255])
    (hdate : mkTimestamp (2000 + body.getD 92 0) (body.getD 90 0) (body.getD 91 0)
      (body.getD 88 0) (body.getD 89 0) = some T)
    (hpw : d.power = none) :
    (accumulate d (INFO ++ body)).2 = some Err.formatError ∧
    (accumulate d (INFO ++ body)).1.power = some ((be3At body 0 : ℚ) / 1000) ∧
    (accumulate d (INFO ++ body)).1.recorded = some ((be3At body 3 : ℚ) / 100) ∧
    (accumulate d (INFO ++ body)).1.on_hours = some ((be3At body 6 : ℚ) / 100) ∧
    (accumulate d (INFO ++ body)).1.sensor_id = some (body.getD 79 0) ∧
    (accumulate d (INFO ++ body)).1.price1 = some ((bcd4At body 80 : ℚ) / 1000) ∧
    (accumulate d (INFO ++ body)).1.price2 = some ((bcd4At body 84 : ℚ) / 1000) ∧
    (accumulate d (INFO ++ body)).1.since = some T ∧
    (accumulate d (INFO ++ body)).1.daily_total = d.daily_total ++ hdrDailyVals body ∧
    (accumulate d (INFO ++ body)).1.record_list = d.record_list := by
  have h5 : (INFO ++ body).take 5 = INFO := rfl
  have hdrop : (INFO ++ body).drop 5 = body := rfl
  have hH := headerAccum_decode d body T hlen hdate hpw
  rw [if_neg htail] at hH
  have herr : (headerAccum d ((INFO ++ body).drop 5)).2 = some Err.formatError := by
    rw [hdrop, hH]
  rw [accumulate_header_error d (INFO ++ body) Err.formatError h5 herr, hdrop, hH]
  exact ⟨rfl, rfl, rfl, rfl, rfl, rfl, rfl, rfl, rfl, rfl⟩

theorem C1_witness : (accumulate emptyData (INFO ++ hdrBodyBad)).1.since = some 44640 :=
  (C1_bad_trailer_state emptyData hdrBodyBad 44640 (by decide) (by decide) (by decide)
    rfl).2.2.2.2.2.2.2.1

/-- C1 is refuted as stated: on this concrete header block with a bad
trailer the call fails with a format error, yet the dataset is
modified, power having changed from none to a decoded value. -/
theorem C1_counterexample :
    (accumulate emptyData (INFO ++ hdrBodyBad)).2 = some Err.formatError ∧
    (accumulate emptyData (INFO ++ hdrBodyBad)).1.power ≠ emptyData.power := by
  decide

/-- C4 (amended): accumulate performs no range check on the sensor-id
byte: for every well-formed header block it succeeds and stores the
raw byte at offset 79, whatever its value; the 0-9 check happens only
in the orchestration layer against the filename. -/
theorem C4_sensor_byte_unchecked (d : Data) (body : List Nat) (T : Nat)
    (hlen : 93 ≤ body.length)
    (htail : body.drop 93 = [255, 255, 255, 255])
    (hdate : mkTimestamp (2000 + body.getD 92 0) (body.getD 90 0) (body.getD 91 0)
      (body.getD 88 0) (body.getD 89 0) = some T)
    (hpw : d.power = none) :
    (accumulate d (INFO ++ body)).2 = none ∧
    (accumulate d (INFO ++ body)).1.sensor_id = some (body.getD 79 0) := by
  have h5 : (INFO ++ body).take 5 = INFO := rfl
  have hdrop : (INFO ++ body).drop 5 = body := rfl
  have hH := headerAccum_decode d body T hlen hdate hpw
  rw [if_pos htail] at hH
  have hok : (headerAccum d ((INFO ++ body).drop 5)).2 = none := by rw [hdrop, hH]
  rw [accumulate_header_ok d (INFO ++ body) h5 hok, hdrop, hH]
  exact ⟨rfl, rfl⟩

theorem C4_witness : (accumulate emptyData (INFO ++ hdrBodySensor10)).1.sensor_id = some 10 :=
  (C4_sensor_byte_unchecked emptyData hdrBodySensor10 44640 (by decide) (by decide) (by decide)
    rfl).2

/-- C4 is refuted as stated: this well-formed header block carries the
sensor-id byte 10, outside 0-9, yet accumulate succeeds (no range
error) and stores the byte. -/
theorem C4_counterexample :
    (accumulate emptyData (INFO ++ hdrBodySensor10)).2 = none ∧
    (accumulate emptyData (INFO ++ hdrBodySensor10)).1.sensor_id = some 10 := by
  decide

/-- C9: a tariff1 marker arriving while a tariff1 window is already
open only appends a conflict warning, leaving the window (earlier
start), the emitted result and the other state unchanged; in
particular merging starts 08:00, 09:00 against 20:00 yields exactly
the window (08:00, 20:00) with one conflict warning (times in minutes:
480, 540, 1200). The sweep is a total function, so a conflict never
aborts it. -/
theorem C9_tariff1_conflict :
    (∀ (s : SweepState) (t r : Nat), s.running_range = some r →
      priceStep s (t, true) = { s with warnings := s.warnings ++ [PriceWarning.dup1 t r] }) ∧
    getPrice1RangeList [480, 540] [1200] =
      ([(480, some 1200)], [PriceWarning.dup1 540 480]) := by
  constructor
  · intro s t r h
    unfold priceStep
    rw [h]
    rfl
  · decide

theorem C9_witness :
    priceStep ⟨[], [], none, some 480⟩ (540, true) =
      ⟨[], [PriceWarning.dup1 540 480], none, some 480⟩ :=
  C9_tariff1_conflict.1 ⟨[], [], none, some 480⟩ 540 480 rfl

/-- C10: when the same time t is both a tariff1 start and a tariff2
start, the tariff1 entry sorts first (stable sort, tariff1 tagged
entries listed before tariff2), the window opens at t and immediately
closes at t: the merge returns exactly the degenerate window (t, t)
and no warning. -/
theorem C10_equal_time_degenerate_window (t : Nat) :
    getPrice1RangeList [t] [t] = ([(t, some t)], []) := by
  unfold getPrice1RangeList
  simp [List.insertionSort, List.orderedInsert, priceStep]

/-- C6: the post-accumulation backfill never changes a record whose
timestamp is already resolved (it keeps the whole entry, values
included), preserves every record's measurement values and the list
length, and only a leading run of unresolved entries, stopping at the
first resolved entry, can receive new timestamps: beyond some k whose
prefix is all-unresolved the list is untouched. -/
theorem C6_backfill_frame (d : Data) :
    (backfillData d).record_list.length = d.record_list.length ∧
    (∀ i : Nat, (d.record_list.getD i defaultRec).ts.isSome = true →
      (backfillData d).record_list.getD i defaultRec = d.record_list.getD i defaultRec) ∧
    (∀ i : Nat,
      ((backfillData d).record_list.getD i defaultRec).voltage =
        (d.record_list.getD i defaultRec).voltage ∧
      ((backfillData d).record_list.getD i defaultRec).current =
        (d.record_list.getD i defaultRec).current ∧
      ((backfillData d).record_list.getD i defaultRec).power_factor =
        (d.record_list.getD i defaultRec).power_factor) ∧
    (∃ k, k ≤ d.record_list.length ∧
      (∀ i, i < k → (d.record_list.getD i defaultRec).ts = none) ∧
      (backfillData d).record_list.drop k = d.record_list.drop k) := by
  have hBD : (backfillData d).record_list = backfillList d.since d.record_list := rfl
  rcases backfillList_cases d.since d.record_list with hid | ⟨t, hs, hfill⟩
  · rw [hBD, hid]
    exact ⟨rfl, fun i _ => rfl, fun i => ⟨rfl, rfl, rfl⟩,
      ⟨0, by omega, by omega, rfl⟩⟩
  · rw [hBD, hfill]
    refine ⟨fillRun_length t _, fun i h => fillRun_getD_some t i _ h,
      fun i => fillRun_values t i _, fillRun_run t _⟩

theorem C6_witness :
    (backfillData ⟨none, none, none, none, none, none, some 5,
        [⟨none, 1, 1, 1⟩, ⟨some 3, 2, 2, 2⟩], []⟩).record_list.getD 1 defaultRec =
      ⟨some 3, 2, 2, 2⟩ :=
  (C6_backfill_frame ⟨none, none, none, none, none, none, some 5,
    [⟨none, 1, 1, 1⟩, ⟨some 3, 2, 2, 2⟩], []⟩).2.1 1 (by decide)

/-- C8 (amended): record-stream parsing has exactly two failure paths:
running out of bytes mid-record (truncation) and a time marker whose
five date bytes do not form a valid calendar date (the datetime
constructor raises); any failing record-stream accumulate call
returns one of those two errors. A block whose reads all complete up
to the terminator can therefore still fail, on an invalid marker
date. -/
theorem C8_record_stream_errors (d : Data) (bytes : List Nat) (e : Err)
    (h5 : bytes.take 5 ≠ INFO) (h : (accumulate d bytes).2 = some e) :
    e = Err.truncation ∨ e = Err.badDate := by
  rw [accumulate_record_errs d bytes h5] at h
  exact parseStream_err (bytes.length + 1) none bytes [] e h

theorem C8_witness : Err.truncation = Err.truncation ∨ Err.truncation = Err.badDate :=
  C8_record_stream_errors emptyData [0, 1] Err.truncation (by decide) (by decide)

/-- C8 is refuted as stated: this record-stream block has every read
complete (a full 8-byte time marker then the 3-byte terminator), yet
accumulate fails, with an invalid-date error, not a truncation: the
marker's month byte is 0 and the datetime constructor rejects it. -/
theorem C8_counterexample :
    (accumulate emptyData badDateBlk).2 = some Err.badDate ∧
    Err.badDate ≠ Err.truncation := by
  decide

theorem backfillList_none (l : List Record) : backfillList none l = l := rfl

/-- C5 (amended): the sort runs only in the record-stream branch and
precedes the backfill, which together with EARLIEST_TIME ties can
break the stated invariant (see the counterexample); what holds is:
after every successful record-stream accumulate call on a dataset
whose since is unresolved (so the backfill is inert), the record list
is sorted ascending by the key timestamp-with-None-as-EARLIEST_TIME,
is a permutation of the old records followed by the newly parsed ones,
and the unresolved entries keep exactly their relative insertion order
(the sort is stable and their key is minimal). -/
theorem C5_sort_invariant (d : Data) (bytes : List Nat)
    (h5 : bytes.take 5 ≠ INFO) (hs : d.since = none)
    (hok : (accumulate d bytes).2 = none) :
    List.Sorted recLE (accumulate d bytes).1.record_list ∧
    ((accumulate d bytes).1.record_list).Perm
      (d.record_list ++ (parseStream (bytes.length + 1) none bytes []).1) ∧
    ((accumulate d bytes).1.record_list).filter (fun r => r.ts.isNone) =
      (d.record_list ++ (parseStream (bytes.length + 1) none bytes []).1).filter
        (fun r => r.ts.isNone) := by
  have hP : (parseStream (bytes.length + 1) none bytes []).2 = none := by
    rw [accumulate_record_errs d bytes h5] at hok
    exact hok
  rw [accumulate_record_ok d bytes h5 hP]
  dsimp only
  rw [hs, backfillList_none]
  refine ⟨List.sorted_insertionSort recLE _, List.perm_insertionSort recLE _, ?_⟩
  refine filter_insertionSort_min _ (fun x hx y => recLE_of_none x y ?_) _
  simpa using hx

theorem C5_witness : List.Sorted recLE (accumulate emptyData oneMeasBlk).1.record_list :=
  (C5_sort_invariant emptyData oneMeasBlk (by decide) rfl (by decide)).1

/-- C5 is refuted as stated: accumulate a record block holding an
unmarked measurement and a measurement at 2000-01-02, then a header
block with since 2000-02-01; the header call succeeds but sorts
nothing, and its backfill gives the leading unresolved record minute
44640, after the resolved record at minute 1440, so the record list
is no longer sorted ascending by timestamp. -/
theorem C5_counterexample :
    (accumulate emptyData rblkC5).2 = none ∧
    (accumulate (accumulate emptyData rblkC5).1 (INFO ++ hdrBody0)).2 = none ∧
    ¬ List.Sorted recLE
      (accumulate (accumulate emptyData rblkC5).1 (INFO ++ hdrBody0)).1.record_list := by
  decide

/-- C7 (amended): a record-stream block holding n measurement records
and no time marker, accumulated into a dataset whose since is resolved
and whose record list is empty, gives every one of the n records a
resolved timestamp: record i (0-based, insertion order) is timestamped
since + i minutes (i times 60 seconds). The restriction to an empty
prior record list is forced by the counterexample: a pre-existing
record resolved exactly at EARLIEST_TIME ties with the new unresolved
entries, stays ahead of them in the stable sort, and suppresses the
backfill. -/
theorem C7_unmarked_stream (d : Data) (s : Nat) (ms : List (Nat × Nat × Nat))
    (hs : d.since = some s) (hrec : d.record_list = [])
    (h5 : (encodeStream ms).take 5 ≠ INFO)
    (hm : ∀ m ∈ ms, (encodeMeas m).take 3 ≠ [0xe0, 0xc5, 0xea] ∧
      (encodeMeas m).take 3 ≠ [0xff, 0xff, 0xff]) :
    (accumulate d (encodeStream ms)).2 = none ∧
    (accumulate d (encodeStream ms)).1.record_list.length = ms.length ∧
    ∀ i, i < ms.length →
      (accumulate d (encodeStream ms)).1.record_list.getD i defaultRec =
        { measRecord none (ms.getD i (0, 0, 0)) with ts := some (s + i) } := by
  have hPn := parseStream_encode ms ((encodeStream ms).length + 1) [] hm (by omega)
  have hP2 : (parseStream ((encodeStream ms).length + 1) none (encodeStream ms) []).2 = none := by
    rw [hPn]
  have hP1 : (parseStream ((encodeStream ms).length + 1) none (encodeStream ms) []).1 =
      ms.map (measRecord none) := by
    rw [hPn]
    simp
  have hnone : ∀ a ∈ ms.map (measRecord none), a.ts = none := by
    intro a ha
    obtain ⟨m, _, rfl⟩ := List.mem_map.mp ha
    rfl
  have hRL : (accumulate d (encodeStream ms)).1.record_list =
      fillRun s (ms.map (measRecord none)) := by
    rw [accumulate_record_ok d (encodeStream ms) h5 hP2]
    dsimp only
    rw [hs, hrec, hP1]
    rw [List.nil_append, List.Sorted.insertionSort_eq (sorted_map_measRecord ms),
      backfillList_all_none s _ hnone]
  refine ⟨?_, ?_, ?_⟩
  · rw [accumulate_record_ok d (encodeStream ms) h5 hP2]
  · rw [hRL, fillRun_length]
    simp
  · intro i hi
    rw [hRL]
    exact fillRun_map_measRecord ms s i hi

theorem C7_witness :
    (accumulate ⟨none, none, none, none, none, none, some 7, [], []⟩
        (encodeStream [(1, 2, 3)])).1.record_list.getD 0 defaultRec =
      { measRecord none (1, 2, 3) with ts := some (7 + 0) } :=
  (C7_unmarked_stream ⟨none, none, none, none, none, none, some 7, [], []⟩ 7 [(1, 2, 3)]
    rfl rfl (by decide) (by decide)).2.2 0 (by decide)

/-- C7 is refuted as stated: build a dataset with since resolved to
minute 5 (header) and one record resolved exactly at minute 0
(EARLIEST_TIME, via a time marker); accumulating a record-stream block
with one measurement and no time marker then leaves that new record
unresolved (the stable sort keeps it behind the minute-0 record and
the backfill sees a resolved first entry), instead of since + 0. -/
theorem C7_counterexample :
    (accumulate emptyData (INFO ++ hdrBody5)).2 = none ∧
    (accumulate (accumulate emptyData (INFO ++ hdrBody5)).1 mblkEpoch).2 = none ∧
    (accumulate (accumulate emptyData (INFO ++ hdrBody5)).1 mblkEpoch).1.since = some 5 ∧
    (accumulate (accumulate (accumulate emptyData (INFO ++ hdrBody5)).1 mblkEpoch).1
      oneMeasBlk).2 = none ∧
    ((accumulate (accumulate (accumulate emptyData (INFO ++ hdrBody5)).1 mblkEpoch).1
      oneMeasBlk).1.record_list.map (fun r => r.ts)) = [some 0, none] := by
  decide

theorem backfillList_nil (s : Option Nat) : backfillList s [] = [] := by
  cases s <;> rfl

theorem c3_mixed (A B : List Nat) (hA : A.take 5 = INFO) (hB : B.take 5 ≠ INFO)
    (h1 : (accumulate emptyData A).2 = none)
    (h2 : (accumulate (accumulate emptyData A).1 B).2 = none)
    (_h3 : (accumulate emptyData B).2 = none)
    (h4 : (accumulate (accumulate emptyData B).1 A).2 = none) :
    (accumulate (accumulate emptyData A).1 B).1.record_list =
      (accumulate (accumulate emptyData B).1 A).1.record_list := by
  have hH1 : (headerAccum emptyData (A.drop 5)).2 = none := by
    rw [← accumulate_header_errs emptyData A hA]
    exact h1
  have e1 := accumulate_header_ok emptyData A hA hH1
  have hPB : (parseStream (B.length + 1) none B []).2 = none := by
    rw [← accumulate_record_errs (accumulate emptyData A).1 B hB]
    exact h2
  have e2 := accumulate_record_ok (accumulate emptyData A).1 B hB hPB
  have hdAr : (accumulate emptyData A).1.record_list = [] := by
    rw [e1]
    show backfillList (headerAccum emptyData (A.drop 5)).1.since
      (headerAccum emptyData (A.drop 5)).1.record_list = []
    rw [headerAccum_record_list]
    exact backfillList_nil _
  have hdAs : (accumulate emptyData A).1.since = (headerAccum emptyData (A.drop 5)).1.since := by
    rw [e1]
    rfl
  have hL1 : (accumulate (accumulate emptyData A).1 B).1.record_list =
      backfillList ((headerAccum emptyData (A.drop 5)).1.since)
        (List.insertionSort recLE (parseStream (B.length + 1) none B []).1) := by
    rw [e2]
    dsimp only
    rw [hdAr, List.nil_append, hdAs]
  have e3 := accumulate_record_ok emptyData B hB hPB
  have hdBr : (accumulate emptyData B).1.record_list =
      List.insertionSort recLE (parseStream (B.length + 1) none B []).1 := by
    rw [e3]
    show backfillList none
      (List.insertionSort recLE ([] ++ (parseStream (B.length + 1) none B []).1)) = _
    rw [backfillList_none, List.nil_append]
  have hH2 : (headerAccum (accumulate emptyData B).1 (A.drop 5)).2 = none := by
    rw [← accumulate_header_errs (accumulate emptyData B).1 A hA]
    exact h4
  have e4 := accumulate_header_ok (accumulate emptyData B).1 A hA hH2
  have hL2 : (accumulate (accumulate emptyData B).1 A).1.record_list =
      backfillList ((headerAccum (accumulate emptyData B).1 (A.drop 5)).1.since)
        (List.insertionSort recLE (parseStream (B.length + 1) none B []).1) := by
    rw [e4]
    show backfillList ((headerAccum (accumulate emptyData B).1 (A.drop 5)).1.since)
      ((headerAccum (accumulate emptyData B).1 (A.drop 5)).1.record_list) = _
    rw [headerAccum_record_list, hdBr]
  have hS : (headerAccum emptyData (A.drop 5)).1.since =
      (headerAccum (accumulate emptyData B).1 (A.drop 5)).1.since := by
    rw [headerAccum_ok_since _ _ hH1, headerAccum_ok_since _ _ hH2]
  rw [hL1, hL2, hS]

theorem c3_records_multiset (A B : List Nat) (hA : A.take 5 ≠ INFO) (hB : B.take 5 ≠ INFO)
    (h1 : (accumulate emptyData A).2 = none)
    (h2 : (accumulate (accumulate emptyData A).1 B).2 = none) :
    ((accumulate (accumulate emptyData A).1 B).1.record_list : Multiset Record) =
      ((parseStream (A.length + 1) none A []).1 : Multiset Record) +
        ((parseStream (B.length + 1) none B []).1 : Multiset Record) := by
  have hPA : (parseStream (A.length + 1) none A []).2 = none := by
    rw [← accumulate_record_errs emptyData A hA]
    exact h1
  have hPB : (parseStream (B.length + 1) none B []).2 = none := by
    rw [← accumulate_record_errs (accumulate emptyData A).1 B hB]
    exact h2
  have e1 := accumulate_record_ok emptyData A hA hPA
  have hdAr : (accumulate emptyData A).1.record_list =
      List.insertionSort recLE (parseStream (A.length + 1) none A []).1 := by
    rw [e1]
    show backfillList none
      (List.insertionSort recLE ([] ++ (parseStream (A.length + 1) none A []).1)) = _
    rw [backfillList_none, List.nil_append]
  have hdAs : (accumulate emptyData A).1.since = none := by
    rw [e1]
    rfl
  have e2 := accumulate_record_ok (accumulate emptyData A).1 B hB hPB
  have hL : (accumulate (accumulate emptyData A).1 B).1.record_list =
      List.insertionSort recLE
        (List.insertionSort recLE (parseStream (A.length + 1) none A []).1 ++
          (parseStream (B.length + 1) none B []).1) := by
    rw [e2]
    dsimp only
    rw [hdAs, backfillList_none, hdAr]
  rw [hL]
  have p1 := List.perm_insertionSort recLE
    (List.insertionSort recLE (parseStream (A.length + 1) none A []).1 ++
      (parseStream (B.length + 1) none B []).1)
  rw [Multiset.coe_eq_coe.mpr p1, ← Multiset.coe_add]
  refine congrArg (· + ((parseStream (B.length + 1) none B []).1 : Multiset Record)) ?_
  exact Multiset.coe_eq_coe.mpr (List.perm_insertionSort recLE _)

/-- C3: for two raw blocks valid for one sensor (both orders of the
two accumulate calls succeed) containing at most one header block,
accumulating A then B into a fresh dataset and accumulating B then A
yield the same multiset of record tuples. (When one block is a header
the final record lists are even equal; when both are record streams
only tie order among equal timestamps can differ.) -/
theorem C3_accumulate_commutes (A B : List Nat)
    (hone : ¬ (A.take 5 = INFO ∧ B.take 5 = INFO))
    (h1 : (accumulate emptyData A).2 = none)
    (h2 : (accumulate (accumulate emptyData A).1 B).2 = none)
    (h3 : (accumulate emptyData B).2 = none)
    (h4 : (accumulate (accumulate emptyData B).1 A).2 = none) :
    ((accumulate (accumulate emptyData A).1 B).1.record_list : Multiset Record) =
      ((accumulate (accumulate emptyData B).1 A).1.record_list : Multiset Record) := by
  by_cases hA : A.take 5 = INFO <;> by_cases hB : B.take 5 = INFO
  · exact absurd ⟨hA, hB⟩ hone
  · exact congrArg (fun l : List Record => (l : Multiset Record))
      (c3_mixed A B hA hB h1 h2 h3 h4)
  · exact (congrArg (fun l : List Record => (l : Multiset Record))
      (c3_mixed B A hB hA h3 h4 h1 h2)).symm
  · rw [c3_records_multiset A B hA hB h1 h2, c3_records_multiset B A hB hA h3 h4]
    exact add_comm _ _

theorem C3_witness :
    ((accumulate (accumulate emptyData (INFO ++ hdrBody0)).1 oneMeasBlk).1.record_list :
        Multiset Record) =
      ((accumulate (accumulate emptyData oneMeasBlk).1 (INFO ++ hdrBody0)).1.record_list :
        Multiset Record) :=
  C3_accumulate_commutes (INFO ++ hdrBody0) oneMeasBlk (by decide) (by decide) (by decide)
    (by decide) (by decide)

end EL4K
